import Mathlib

/-!
Verification of the moto3 repository (batch-oriented wrappers around a remote
message queue and a remote object store) against its natural-language
specification.

The shallow embedding below translates the relevant parts of
`moto3/queue_manager.py`, `moto3/s3_manager.py` and `moto3/__init__.py` into
Lean definitions.  External collaborators (the boto3/botocore clients, the
`json` standard library, the filesystem) are modelled as explicit parameters
or as small executable models, as noted on each definition.
-/

namespace Moto3

/-! ## Retry governor (queue_manager.py, lines 31-41 and 87-97)

One invocation of the submission function `_upload_batch` either returns
normally, raises `botocore.parsers.ResponseParserError` (the transient class,
the only class caught by the `except` clauses), or raises any other exception
(fatal, uncaught by the loop).  The submission function is abstracted as a map
from the zero-based attempt index to one of these three outcomes. -/

/-- Outcome of one call to the submission function `_upload_batch`:
normal return, `botocore.parsers.ResponseParserError` (transient), or any
other exception (fatal, not caught by the retry loops). -/
inductive SubResult where
  | ok
  | transientErr
  | fatalErr
deriving DecidableEq

/-- How the sequential retry loop in `QueueManager.upload`
(queue_manager.py lines 87-97) terminates: `completed` covers both the
`break` after a successful call and falling off the end of the `for` loop;
`raisedTransient` is the `raise e` on the last retry; `raisedFatal` is a
non-`ResponseParserError` exception propagating uncaught. -/
inductive SeqExit where
  | completed
  | raisedTransient
  | raisedFatal
deriving DecidableEq

/-- How `_upload_batch_with_retry` (queue_manager.py lines 31-41) terminates:
`retNone` covers both `return None` on success and the implicit `None` when
the loop ends; `retExcValue` is `return e` on the last retry (the exception is
returned as a value, not raised); `raisedFatal` is a non-transient exception
propagating out of the worker. -/
inductive PoolExit where
  | retNone
  | retExcValue
  | raisedFatal
deriving DecidableEq

/-- The body of `for retry in range(max_retries): ...` in the sequential path
of `QueueManager.upload` (queue_manager.py lines 88-97), starting at loop
index `retry` with `rem` iterations remaining (`rem = max_retries - retry`).
Returns the exit kind, the number of invocations of `_upload_batch`, and the
number of `time.sleep(sleep_time)` calls performed from this point on. -/
def seqRetryGo (f : Nat → SubResult) (m : Nat) : Nat → Nat → SeqExit × Nat × Nat
  | _, 0 => (.completed, 0, 0)
  | retry, rem + 1 =>
    match f retry with
    | .ok => (.completed, 1, 0)
    | .fatalErr => (.raisedFatal, 1, 0)
    | .transientErr =>
      if retry < m - 1 then
        match seqRetryGo f m (retry + 1) rem with
        | (ex, n, s) => (ex, n + 1, s + 1)
      else (.raisedTransient, 1, 0)

/-- The sequential per-batch retry loop of `QueueManager.upload`
(queue_manager.py lines 88-97): `for retry in range(max_retries)` starting at
`retry = 0`. -/
def seqRetryLoop (f : Nat → SubResult) (m : Nat) : SeqExit × Nat × Nat :=
  seqRetryGo f m 0 m

/-- The body of `for retry in range(max_retries): ...` in
`_upload_batch_with_retry` (queue_manager.py lines 33-41), same shape as the
sequential loop except that success is `return None` and exhaustion is
`return e` (the exception returned as a value). -/
def poolRetryGo (f : Nat → SubResult) (m : Nat) : Nat → Nat → PoolExit × Nat × Nat
  | _, 0 => (.retNone, 0, 0)
  | retry, rem + 1 =>
    match f retry with
    | .ok => (.retNone, 1, 0)
    | .fatalErr => (.raisedFatal, 1, 0)
    | .transientErr =>
      if retry < m - 1 then
        match poolRetryGo f m (retry + 1) rem with
        | (ex, n, s) => (ex, n + 1, s + 1)
      else (.retExcValue, 1, 0)

/-- `_upload_batch_with_retry(args)` (queue_manager.py lines 31-41) with
`max_retries = m` and submission behaviour `f`. -/
def uploadBatchWithRetry (f : Nat → SubResult) (m : Nat) : PoolExit × Nat × Nat :=
  poolRetryGo f m 0 m

/-- The drain loop of the pooled path of `QueueManager.upload`
(queue_manager.py lines 99-111): `for result in p.imap(...): if
isinstance(result, Exception): raise result`.  A worker result that is a
returned exception value is raised at the point it is observed; a worker that
itself raised propagates through `imap` at the same point.  Returns `ok` when
every result was drained without raising, `error r` when draining stopped by
raising at a result of kind `r`. -/
def drainPoolResults : List PoolExit → Except PoolExit Unit
  | [] => .ok ()
  | r :: rest =>
    match r with
    | .retNone => drainPoolResults rest
    | .retExcValue => .error .retExcValue
    | .raisedFatal => .error .raisedFatal

/-- A submission function that raises the transient error class on exactly the
first `k` attempts and then succeeds. -/
def stepFun (k : Nat) : Nat → SubResult :=
  fun i => if i < k then .transientErr else .ok

/-! ## Batch partitioner (queue_manager.py lines 70-83, __init__.py lines 45-58)

`QueueManager.upload` first annotates the payloads:
`messages = [{"Id": f"{i}", "MessageBody": ...} for i, message in
enumerate(messages)]` — note `enumerate` runs over the whole input list, so
`i` is the global zero-based position — and then slices:
`batches = [messages[i : i + batch_size] for i in range(0, len(messages),
batch_size)]` with `batch_size = 10`.  The `MessageBody` conversion
(`json.dumps` for non-strings) is kept abstract: the claims under proof
concern only the `Id` field and the grouping of the payloads. -/

/-- One entry of the annotated message list: the dict
`{"Id": f"{i}", "MessageBody": ...}` built in `QueueManager.upload`. -/
structure SqsEntry (α : Type) where
  id : String
  messageBody : α
deriving DecidableEq

/-- The annotated message list built by `QueueManager.upload`
(queue_manager.py lines 70-78): `enumerate` over the whole input. -/
def mkEntries {α : Type} (msgs : List α) : List (SqsEntry α) :=
  msgs.enum.map (fun p => ⟨toString p.1, p.2⟩)

/-- `batch_size = 10` (queue_manager.py line 79). -/
def batchSize : Nat := 10

/-- Model of the Python slice comprehension
`[xs[i : i + c] for i in range(0, len(xs), c)]`: `range(0, L, c)` enumerates
the `(L + c - 1) / c` (ceiling of `L / c`) values `0, c, 2c, ...`, and
`xs[i : i + c]` is `take c` after `drop i`. -/
def pySlices {α : Type} (c : Nat) (xs : List α) : List (List α) :=
  (List.range ((xs.length + c - 1) / c)).map (fun i => (xs.drop (i * c)).take c)

/-- The batch list built by `QueueManager.upload` (queue_manager.py lines
80-83; the partitioning in __init__.py lines 54-58 is identical): the
annotated entries sliced into groups of `batch_size = 10`.  (The pairing of
each slice with the queue URL is dropped: it does not affect partitioning.) -/
def uploadBatches {α : Type} (msgs : List α) : List (List (SqsEntry α)) :=
  pySlices batchSize (mkEntries msgs)

/-! ## Model of the external `json.loads` collaborator

`QueueManager.get_next` calls the Python standard library `json.loads` on
payloads that start with a brace.  The claims under proof only depend on
whether `json.loads` succeeds or raises `JSONDecodeError`, so the external
collaborator is modelled as a strict validity checker for the standard JSON
grammar (objects, arrays, strings with escapes, numbers, `true`/`false`/
`null`; the nonstandard `NaN`/`Infinity` extensions are not modelled, and
scalar contents are erased).  The recursion is driven by a fuel argument of
`2 * length + 2`, which over-approximates the recursion depth: every two
nested calls consume at least one input character. -/

def lbrace : Char := Char.ofNat 123

def rbrace : Char := Char.ofNat 125

/-- Skip JSON whitespace. -/
def skipWs : List Char → List Char
  | c :: rest =>
    if c = ' ' || c = '\t' || c = '\n' || c = '\r' then skipWs rest else c :: rest
  | [] => []

def isHexDigitJ (c : Char) : Bool :=
  c.isDigit || ('a' ≤ c && c ≤ 'f') || ('A' ≤ c && c ≤ 'F')

/-- Parse the body of a JSON string after the opening quote; returns the
input remaining after the closing quote. -/
def parseStrBody : List Char → Option (List Char)
  | [] => none
  | '"' :: rest => some rest
  | '\\' :: 'u' :: a :: b :: c :: d :: rest =>
    if isHexDigitJ a && isHexDigitJ b && isHexDigitJ c && isHexDigitJ d then
      parseStrBody rest
    else none
  | '\\' :: c :: rest =>
    if c = '"' || c = '\\' || c = '/' || c = 'b' || c = 'f' ||
        c = 'n' || c = 'r' || c = 't' then
      parseStrBody rest
    else none
  | c :: rest => if c.toNat < 32 then none else parseStrBody rest

/-- Drop a run of decimal digits. -/
def dropDigits : List Char → List Char
  | c :: rest => if c.isDigit then dropDigits rest else c :: rest
  | [] => []

/-- JSON integer part: `0` or a nonzero digit followed by digits. -/
def parseIntPart : List Char → Option (List Char)
  | '0' :: rest => some rest
  | c :: rest => if c.isDigit then some (dropDigits rest) else none
  | [] => none

/-- Optional JSON fraction part: `.` followed by one or more digits. -/
def parseFrac : List Char → Option (List Char)
  | '.' :: c :: rest => if c.isDigit then some (dropDigits rest) else none
  | '.' :: [] => none
  | cs => some cs

def parseExpTail (cs : List Char) : Option (List Char) :=
  let cs1 :=
    match cs with
    | '+' :: rest => rest
    | '-' :: rest => rest
    | _ => cs
  match cs1 with
  | c :: rest => if c.isDigit then some (dropDigits rest) else none
  | [] => none

/-- Optional JSON exponent part: `e`/`E`, optional sign, one or more digits. -/
def parseExpPart : List Char → Option (List Char)
  | 'e' :: rest => parseExpTail rest
  | 'E' :: rest => parseExpTail rest
  | cs => some cs

/-- JSON number: optional minus, integer part, optional fraction/exponent. -/
def parseNum (cs : List Char) : Option (List Char) :=
  let cs1 :=
    match cs with
    | '-' :: rest => rest
    | _ => cs
  match parseIntPart cs1 with
  | none => none
  | some cs2 =>
    match parseFrac cs2 with
    | none => none
    | some cs3 => parseExpPart cs3

/-- Parser mode: a single value, the tail of an array, or the tail of an
object (`first` marks that no element/member has been consumed yet, so a
closing bracket is still allowed). -/
inductive PMode where
  | value
  | elems (first : Bool)
  | members (first : Bool)

/-- Fuel-driven recogniser for the JSON grammar; returns the remaining input
after one value (mode `value`), array tail (mode `elems`) or object tail
(mode `members`). -/
def parseJ : Nat → PMode → List Char → Option (List Char)
  | 0, _, _ => none
  | fuel + 1, .value, cs =>
    (match skipWs cs with
     | 'n' :: 'u' :: 'l' :: 'l' :: rest => some rest
     | 't' :: 'r' :: 'u' :: 'e' :: rest => some rest
     | 'f' :: 'a' :: 'l' :: 's' :: 'e' :: rest => some rest
     | '"' :: rest => parseStrBody rest
     | '[' :: rest => parseJ fuel (.elems true) rest
     | c :: rest =>
       if c = lbrace then parseJ fuel (.members true) rest else parseNum (c :: rest)
     | [] => none)
  | fuel + 1, .elems first, cs =>
    (match skipWs cs with
     | ']' :: rest => if first then some rest else none
     | cs' =>
       match parseJ fuel .value cs' with
       | none => none
       | some rest =>
         match skipWs rest with
         | ',' :: rest2 => parseJ fuel (.elems false) rest2
         | ']' :: rest2 => some rest2
         | _ => none)
  | fuel + 1, .members first, cs =>
    (match skipWs cs with
     | [] => none
     | c :: rest =>
       if c = rbrace then (if first then some rest else none)
       else if c = '"' then
         match parseStrBody rest with
         | none => none
         | some rest1 =>
           match skipWs rest1 with
           | ':' :: rest2 =>
             (match parseJ fuel .value rest2 with
              | none => none
              | some rest3 =>
                match skipWs rest3 with
                | ',' :: rest4 => parseJ fuel (.members false) rest4
                | c2 :: rest4 => if c2 = rbrace then some rest4 else none
                | [] => none)
           | _ => none
       else none)

/-- Model of `json.loads(s)` succeeding: `s` is one JSON document with
nothing but whitespace after it. -/
def jsonLoads (s : String) : Bool :=
  match parseJ (2 * s.length + 2) .value s.data with
  | some rest => (skipWs rest).isEmpty
  | none => false

/-- `json.loads` as a parse function (contents erased): `some` iff it
succeeds. -/
def jsonParse (s : String) : Option Unit :=
  if jsonLoads s then some () else none

/-! ## Message retrieval (queue_manager.py lines 113-123) -/

/-- The decoded item of `QueueManager.get_next`: either structured data from
`json.loads` or the raw payload string. -/
inductive Item (J : Type) where
  | structured (j : J)
  | raw (s : String)
deriving DecidableEq

/-- Python `s.startswith(p)`. -/
def pyStartsWith (s p : String) : Bool := p.data.isPrefixOf s.data

/-- Python `s.endswith(p)`. -/
def pyEndsWith (s p : String) : Bool := p.data.isSuffixOf s.data

/-- Python `c in s` for a single character. -/
def pyContainsChar (s : String) (c : Char) : Bool := s.data.contains c

/-- The payload decode of `QueueManager.get_next` (queue_manager.py lines
118-122): `if message.body.startswith("\x7b"): item = json.loads(...)` —
`json.loads` may raise `JSONDecodeError` (modelled as `parse` returning
`none`) — `else: item = message.body`.  `parse` abstracts the external
`json.loads`. -/
def decodeItem {J : Type} (parse : String → Option J) (body : String) :
    Except Unit (Item J) :=
  if pyStartsWith body "\x7b" then
    match parse body with
    | some j => .ok (.structured j)
    | none => .error ()
  else .ok (.raw body)

/-- The keyword arguments `QueueManager.get_next` passes to
`queue.receive_messages`. -/
structure ReceiveArgs where
  maxNumberOfMessages : Nat
  visibilityTimeout : Nat
deriving DecidableEq

/-- The exceptions `QueueManager.get_next` can raise: `response[0]` on an
empty response (IndexError) and `json.loads` on an invalid braced payload
(JSONDecodeError). -/
inductive PyErr where
  | indexError
  | jsonDecodeError
deriving DecidableEq

/-- Model of the external `queue.receive_messages` call: the queue service
delivers the first `min(MaxNumberOfMessages, pending)` pending messages in
order. -/
def receiveMessages (pending : List String) (args : ReceiveArgs) : List String :=
  pending.take args.maxNumberOfMessages

/-- `QueueManager.get_next` (queue_manager.py lines 113-123): calls
`queue.receive_messages(MaxNumberOfMessages=max_messages,
VisibilityTimeout=visibility_timeout)`, then takes `response[0]` (IndexError
when empty), decodes its body, and returns the single `(message, item)`
pair.  The first component records the arguments passed to the service. -/
def get_next {J : Type} (parse : String → Option J) (pending : List String)
    (max_messages visibility_timeout : Nat) :
    ReceiveArgs × Except PyErr (String × Item J) :=
  let args : ReceiveArgs := ⟨max_messages, visibility_timeout⟩
  match receiveMessages pending args with
  | [] => (args, .error .indexError)
  | message :: _ =>
    (args,
     match decodeItem parse message with
     | .ok item => .ok (message, item)
     | .error _ => .error .jsonDecodeError)

/-! ## Destination resolution (queue_manager.py lines 49-62,
s3_manager.py lines 47-60) -/

/-- Outcome of the external `sqs_resource.get_queue_by_name` call. -/
inductive QueueResolveRes where
  | found
  | errDoesNotExist
  | errClientNonExistent
  | errClientOther
  | errOtherExc
deriving DecidableEq

/-- Outcome of the external `sqs_resource.create_queue` call. -/
inductive CreateQueueRes where
  | created
  | createErr
deriving DecidableEq

/-- How `QueueManager._get_queue_url` terminates. -/
inductive QueueUrlResult where
  | okFound
  | okCreated
  | raisedCreateErr
  | raisedUnboundLocal
  | raisedOtherExc
deriving DecidableEq

/-- `QueueManager._get_queue_url` (queue_manager.py lines 49-62).
`QueueDoesNotExist`, and `ClientError` whose text contains
"NonExistentQueue", lead to `create_queue`.  A `ClientError` whose text
lacks "NonExistentQueue" is caught but its handler body does nothing, so
control falls to `return queue.url` with the local `queue` never assigned:
the original error is swallowed and an UnboundLocalError is raised instead.
Any non-`ClientError`, non-`QueueDoesNotExist` exception propagates. -/
def getQueueUrl (g : QueueResolveRes) (c : CreateQueueRes) : QueueUrlResult :=
  match g with
  | .found => .okFound
  | .errDoesNotExist =>
    match c with
    | .created => .okCreated
    | .createErr => .raisedCreateErr
  | .errClientNonExistent =>
    match c with
    | .created => .okCreated
    | .createErr => .raisedCreateErr
  | .errClientOther => .raisedUnboundLocal
  | .errOtherExc => .raisedOtherExc

/-- Outcome of the external `head_bucket` call: success, any `ClientError`
(404 not-found, 403 forbidden, ...), or a non-`ClientError` exception. -/
inductive HeadBucketRes where
  | ok
  | errClientError
  | errOtherExc
deriving DecidableEq

/-- Outcome of the external `create_bucket` call. -/
inductive CreateBucketRes where
  | created
  | errAlreadyOwned
  | errOther
deriving DecidableEq

/-- How `S3Manager.create_bucket` terminates. -/
inductive CreateBucketResult where
  | okFound
  | okCreated
  | raisedAlreadyOwned
  | raisedOther
  | raisedOtherExc
deriving DecidableEq

/-- `S3Manager.create_bucket` (s3_manager.py lines 47-60).  The first
`except ClientError` clause catches every failed `head_bucket` check (404 as
well as 403 and other client errors) and calls `create_bucket`.
`BucketAlreadyOwnedByYou` is a subclass of `ClientError` and is only ever
raised by `create_bucket` inside that handler, where it is not caught, so
the second `except BucketAlreadyOwnedByYou` clause is unreachable and the
error propagates out of manager construction. -/
def create_bucket (h : HeadBucketRes) (c : CreateBucketRes) : CreateBucketResult :=
  match h with
  | .ok => .okFound
  | .errClientError =>
    match c with
    | .created => .okCreated
    | .errAlreadyOwned => .raisedAlreadyOwned
    | .errOther => .raisedOther
  | .errOtherExc => .raisedOtherExc

/-! ## Local-filesystem fallback managers -/

/-- In-memory state of `LocalQueueManager` (queue_manager.py lines 133-140):
the backing file name, the loaded message list and the consumption index.
`delete` and `purge` touch neither this state nor any file on disk. -/
structure LocalQueueState (P : Type) where
  localFile : String
  messages : List P
  currentIndex : Nat
deriving DecidableEq

/-- `LocalQueueManager.delete` (queue_manager.py lines 167-171): logs a
warning and returns `None` for any argument.  Result: (state after the call,
whether a warning was emitted). -/
def localQueueDelete {P M : Type} (st : LocalQueueState P) (_message : M) :
    LocalQueueState P × Bool :=
  (st, true)

/-- `LocalQueueManager.purge` (queue_manager.py lines 173-176): logs a
warning and returns `None`. -/
def localQueuePurge {P : Type} (st : LocalQueueState P) :
    LocalQueueState P × Bool :=
  (st, true)

/-- Python `os.path.join(a, b)` for two POSIX path components. -/
def osPathJoin (a b : String) : String :=
  if pyStartsWith b "/" then b
  else if a = "" then b
  else if pyEndsWith a "/" then a ++ b
  else a ++ "/" ++ b

/-- State of `LocalStorageManager` (s3_manager.py lines 210-212) together
with the filesystem it acts on, modelled as a list of (path, contents)
pairs with distinct paths. -/
structure LocalStorageState where
  rootDir : String
  files : List (String × String)
deriving DecidableEq

/-- `LocalStorageManager.delete` (s3_manager.py lines 228-230):
`os.remove(os.path.join(self.root_dir, key))` — removes the file at the
joined path, raising `FileNotFoundError` when no such file exists.  No
warning is emitted. -/
def localStorageDelete (st : LocalStorageState) (key : String) :
    Except Unit LocalStorageState :=
  let objPath := osPathJoin st.rootDir key
  if st.files.any (fun kv => kv.1 == objPath) then
    .ok ⟨st.rootDir, st.files.filter (fun kv => kv.1 != objPath)⟩
  else .error ()

/-! ## S3Manager construction (s3_manager.py lines 27-46) -/

/-- Python slicing `s[i:]` (empty when `i` is past the end). -/
def pySliceFrom (s : String) (i : Nat) : String := ⟨s.data.drop i⟩

/-- The destination handle fields set by `S3Manager.__init__`. -/
structure S3ManagerState where
  bucketName : String
  dirpath : String
deriving DecidableEq

/-- `S3Manager.__init__` (s3_manager.py lines 39-45): when `bucket_name`
contains "/", `self.bucket_name = bucket_name.split("/")[0]` (the part
before the first "/") and `self.dirpath = bucket_name[len(bucket_name) + 1 :]`. -/
def s3ManagerInit (bucket_name : String) : S3ManagerState :=
  if pyContainsChar bucket_name '/' then
    ⟨(bucket_name.data.takeWhile (fun c => c != '/')).asString,
     pySliceFrom bucket_name (bucket_name.length + 1)⟩
  else ⟨bucket_name, ""⟩

/-- The object key used by `S3Manager.upload` (and `read_file`, `exists`,
`delete`, `download_file`): `os.path.join(self.dirpath, key)`
(s3_manager.py line 76). -/
def s3UploadKey (st : S3ManagerState) (key : String) : String :=
  osPathJoin st.dirpath key

/-! ## Helper lemmas -/

theorem pySlices_length {α : Type} (c : Nat) (xs : List α) :
    (pySlices c xs).length = (xs.length + c - 1) / c := by
  simp [pySlices]

theorem pySlices_flatten_take {α : Type} (c : Nat) :
    ∀ (n : Nat) (xs : List α),
      ((List.range n).map (fun i => (xs.drop (i * c)).take c)).flatten = xs.take (n * c) := by
  intro n
  induction n with
  | zero => intro xs; simp
  | succ n ih =>
    intro xs
    rw [List.range_succ_eq_map, List.map_cons, List.flatten_cons, List.map_map]
    have key : ∀ i : Nat,
        ((fun i => (xs.drop (i * c)).take c) ∘ Nat.succ) i =
          ((xs.drop c).drop (i * c)).take c := by
      intro i
      have h1 : (xs.drop c).drop (i * c) = xs.drop (c + i * c) := List.drop_drop _ _ _
      have h2 : Nat.succ i * c = c + i * c := by rw [Nat.succ_mul, Nat.add_comm]
      simp only [Function.comp_apply, h1, h2]
    rw [funext key, ih (xs.drop c)]
    have h3 : (n + 1) * c = c + n * c := by rw [Nat.succ_mul, Nat.add_comm]
    rw [h3, List.take_add]
    simp

theorem pySlices_flatten {α : Type} (c : Nat) (hc : 0 < c) (xs : List α) :
    (pySlices c xs).flatten = xs := by
  unfold pySlices
  rw [pySlices_flatten_take]
  apply List.take_of_length_le
  rcases Nat.eq_zero_or_pos xs.length with h | h
  · omega
  · have h2 : xs.length + c - 1 = (xs.length - 1) + c := by omega
    rw [h2, Nat.add_div_right _ hc]
    have h3 := Nat.div_add_mod (xs.length - 1) c
    have h4 : (xs.length - 1) % c < c := Nat.mod_lt _ hc
    have h6 : ((xs.length - 1) / c + 1) * c = (xs.length - 1) / c * c + c := by ring
    rw [h6]
    have h7 : (xs.length - 1) / c * c = c * ((xs.length - 1) / c) := by ring
    omega

theorem pySlices_getElem? {α : Type} (c : Nat) (xs : List α) (j : Nat)
    (hj : j < (xs.length + c - 1) / c) :
    (pySlices c xs)[j]? = some ((xs.drop (j * c)).take c) := by
  simp [pySlices, List.getElem?_map, List.getElem?_range hj]

theorem pySlices_full_of_not_last {α : Type} (c : Nat) (hc : 0 < c) (xs : List α)
    (j : Nat) (hj : j + 1 < (xs.length + c - 1) / c) :
    ((xs.drop (j * c)).take c).length = c := by
  have hL : 0 < xs.length := by
    by_contra h
    have : xs.length = 0 := by omega
    rw [this] at hj
    have : (0 + c - 1) / c = 0 := Nat.div_eq_of_lt (by omega)
    omega
  have h2 : xs.length + c - 1 = (xs.length - 1) + c := by omega
  rw [h2, Nat.add_div_right _ hc] at hj
  have h8 : (j + 1) * c ≤ ((xs.length - 1) / c) * c := Nat.mul_le_mul_right c (by omega)
  have h9 : ((xs.length - 1) / c) * c ≤ xs.length - 1 := Nat.div_mul_le_self _ _
  have h10 : (j + 1) * c = j * c + c := Nat.succ_mul _ _
  rw [List.length_take, List.length_drop]
  omega

theorem pySlices_batch_bounds {α : Type} (c : Nat) (hc : 0 < c) (xs : List α)
    (j : Nat) (hj : j < (xs.length + c - 1) / c) :
    0 < ((xs.drop (j * c)).take c).length ∧ ((xs.drop (j * c)).take c).length ≤ c := by
  have hL : 0 < xs.length := by
    by_contra h
    have : xs.length = 0 := by omega
    rw [this] at hj
    have : (0 + c - 1) / c = 0 := Nat.div_eq_of_lt (by omega)
    omega
  have h2 : xs.length + c - 1 = (xs.length - 1) + c := by omega
  rw [h2, Nat.add_div_right _ hc] at hj
  have h8 : j * c ≤ ((xs.length - 1) / c) * c := Nat.mul_le_mul_right c (by omega)
  have h9 : ((xs.length - 1) / c) * c ≤ xs.length - 1 := Nat.div_mul_le_self _ _
  rw [List.length_take, List.length_drop]
  omega

theorem mkEntries_length {α : Type} (msgs : List α) :
    (mkEntries msgs).length = msgs.length := by
  simp [mkEntries]

theorem mkEntries_messageBody {α : Type} (msgs : List α) :
    (mkEntries msgs).map SqsEntry.messageBody = msgs := by
  have h : ∀ p : Nat × α, SqsEntry.messageBody ⟨toString p.1, p.2⟩ = p.2 := fun _ => rfl
  simp [mkEntries, List.map_map, Function.comp_def, h]

theorem mkEntries_getElem? {α : Type} (msgs : List α) (i : Nat) :
    (mkEntries msgs)[i]? = msgs[i]?.map (fun a => ⟨toString i, a⟩) := by
  simp [mkEntries, List.getElem?_map, List.getElem?_enum]
  cases msgs[i]? <;> rfl

/-- Characterisation of the sequential retry loop for a submission function
that raises the transient class on every attempt before `k` and succeeds at
attempt `k` (if reached). -/
theorem seqRetryGo_spec (f : Nat → SubResult) (k m : Nat)
    (hk : ∀ i, i < k → f i = .transientErr) (hok : k < m → f k = .ok) :
    ∀ rem retry, retry + rem = m → retry ≤ k →
      seqRetryGo f m retry rem =
        ((if rem = 0 then .completed else if k < m then .completed else .raisedTransient),
         min (k + 1 - retry) rem, min (k + 1 - retry) rem - 1) := by
  intro rem
  induction rem with
  | zero => intro retry h1 h2; simp [seqRetryGo]
  | succ n ih =>
    intro retry h1 h2
    by_cases hrk : retry < k
    · simp only [seqRetryGo, hk retry hrk]
      by_cases hn : retry < m - 1
      · rw [if_pos hn, ih (retry + 1) (by omega) (by omega)]
        have hn' : n ≠ 0 := by omega
        simp only [Prod.mk.injEq, hn', if_false, Nat.succ_ne_zero]
        refine ⟨trivial, by omega, by omega⟩
      · have hn0 : n = 0 := by omega
        subst hn0
        have hkm : ¬ k < m := by omega
        rw [if_neg hn]
        simp only [Prod.mk.injEq, Nat.succ_ne_zero, if_false, hkm]
        refine ⟨trivial, by omega, by omega⟩
    · have hr : retry = k := by omega
      have hkm : k < m := by omega
      subst hr
      simp only [seqRetryGo, hok hkm]
      simp only [Prod.mk.injEq, Nat.succ_ne_zero, if_false, hkm, if_true]
      refine ⟨trivial, by omega, by omega⟩

/-- Characterisation of the `_upload_batch_with_retry` loop for a submission
function that raises the transient class on every attempt before `k` and
succeeds at attempt `k` (if reached). -/
theorem poolRetryGo_spec (f : Nat → SubResult) (k m : Nat)
    (hk : ∀ i, i < k → f i = .transientErr) (hok : k < m → f k = .ok) :
    ∀ rem retry, retry + rem = m → retry ≤ k →
      poolRetryGo f m retry rem =
        ((if rem = 0 then .retNone else if k < m then .retNone else .retExcValue),
         min (k + 1 - retry) rem, min (k + 1 - retry) rem - 1) := by
  intro rem
  induction rem with
  | zero => intro retry h1 h2; simp [poolRetryGo]
  | succ n ih =>
    intro retry h1 h2
    by_cases hrk : retry < k
    · simp only [poolRetryGo, hk retry hrk]
      by_cases hn : retry < m - 1
      · rw [if_pos hn, ih (retry + 1) (by omega) (by omega)]
        have hn' : n ≠ 0 := by omega
        simp only [Prod.mk.injEq, hn', if_false, Nat.succ_ne_zero]
        refine ⟨trivial, by omega, by omega⟩
      · have hn0 : n = 0 := by omega
        subst hn0
        have hkm : ¬ k < m := by omega
        rw [if_neg hn]
        simp only [Prod.mk.injEq, Nat.succ_ne_zero, if_false, hkm]
        refine ⟨trivial, by omega, by omega⟩
    · have hr : retry = k := by omega
      have hkm : k < m := by omega
      subst hr
      simp only [poolRetryGo, hok hkm]
      simp only [Prod.mk.injEq, Nat.succ_ne_zero, if_false, hkm, if_true]
      refine ⟨trivial, by omega, by omega⟩

theorem pySlices_dropLast_length {α : Type} (c : Nat) (hc : 0 < c) (xs : List α) :
    ∀ b ∈ (pySlices c xs).dropLast, b.length = c := by
  intro b hb
  rw [pySlices] at hb
  rcases Nat.eq_zero_or_pos ((xs.length + c - 1) / c) with h0 | hpos
  · rw [h0] at hb
    simp at hb
  · obtain ⟨M, hM⟩ : ∃ M, (xs.length + c - 1) / c = M + 1 :=
      ⟨(xs.length + c - 1) / c - 1, by omega⟩
    rw [hM, List.range_succ, List.map_append] at hb
    rw [show List.map (fun i => (xs.drop (i * c)).take c) [M] =
        [(xs.drop (M * c)).take c] from rfl, List.dropLast_concat] at hb
    obtain ⟨j, hj, rfl⟩ := List.mem_map.mp hb
    exact pySlices_full_of_not_last c hc xs j (by have := List.mem_range.mp hj; omega)

theorem pySlices_mem_bounds {α : Type} (c : Nat) (hc : 0 < c) (xs : List α) :
    ∀ b ∈ pySlices c xs, 0 < b.length ∧ b.length ≤ c := by
  intro b hb
  rw [pySlices] at hb
  obtain ⟨j, hj, rfl⟩ := List.mem_map.mp hb
  exact pySlices_batch_bounds c hc xs j (List.mem_range.mp hj)

/-! ## Claim theorems -/

/-- Claim C1: for every submission function that raises the transient error
class (botocore ResponseParserError) on exactly the first `k` attempts and
then succeeds, and every `max_retries = m ≥ 1`, both the sequential retry
loop of `QueueManager.upload` and `_upload_batch_with_retry` succeed iff
`k < m`, and the submission function is invoked exactly `min (k+1) m` times:
`max_retries` is the total attempt budget. -/
theorem c1_retry_budget (k m : Nat) (hm : 1 ≤ m) :
    (((seqRetryLoop (stepFun k) m).1 = SeqExit.completed) ↔ k < m) ∧
    (seqRetryLoop (stepFun k) m).2.1 = min (k + 1) m ∧
    (((uploadBatchWithRetry (stepFun k) m).1 = PoolExit.retNone) ↔ k < m) ∧
    (uploadBatchWithRetry (stepFun k) m).2.1 = min (k + 1) m := by
  have hk : ∀ i, i < k → stepFun k i = .transientErr := by
    intro i hi
    simp [stepFun, hi]
  have hok : k < m → stepFun k k = .ok := by
    intro _
    simp [stepFun]
  have hs := seqRetryGo_spec (stepFun k) k m hk hok m 0 (by omega) (by omega)
  have hp := poolRetryGo_spec (stepFun k) k m hk hok m 0 (by omega) (by omega)
  have hm0 : m ≠ 0 := by omega
  rw [seqRetryLoop, uploadBatchWithRetry, hs, hp]
  by_cases hkm : k < m
  · simp only [hm0, if_false, hkm, if_true]
    refine ⟨by simp, by omega, by simp, by omega⟩
  · simp only [hm0, if_false, hkm]
    refine ⟨by simp, by omega, by simp, by omega⟩

/-- Witness for C1 at `k = 2`, `m = 3`. -/
theorem c1_retry_budget_witness :
    (1 ≤ 3) ∧
    ((((seqRetryLoop (stepFun 2) 3).1 = SeqExit.completed) ↔ 2 < 3) ∧
     (seqRetryLoop (stepFun 2) 3).2.1 = min (2 + 1) 3 ∧
     (((uploadBatchWithRetry (stepFun 2) 3).1 = PoolExit.retNone) ↔ 2 < 3) ∧
     (uploadBatchWithRetry (stepFun 2) 3).2.1 = min (2 + 1) 3) :=
  ⟨by decide, c1_retry_budget 2 3 (by decide)⟩

/-- Claim C2: for every input list of length `L` partitioned with capacity 10,
`QueueManager.upload` produces `ceil(L/10)` batches, every batch but possibly
the last has exactly 10 items, every batch is nonempty and has at most 10
items, concatenating the batches in order reproduces the original sequence,
and an empty input yields zero batches. -/
theorem c2_partitioning {α : Type} (msgs : List α) :
    (uploadBatches msgs).length = (msgs.length + 10 - 1) / 10 ∧
    (∀ b ∈ (uploadBatches msgs).dropLast, b.length = 10) ∧
    (∀ b ∈ uploadBatches msgs, 0 < b.length ∧ b.length ≤ 10) ∧
    ((uploadBatches msgs).flatten.map SqsEntry.messageBody = msgs) ∧
    (msgs = [] → uploadBatches msgs = []) := by
  refine ⟨?_, ?_, ?_, ?_, ?_⟩
  · rw [uploadBatches, pySlices_length, mkEntries_length, batchSize]
  · exact pySlices_dropLast_length batchSize (by decide) (mkEntries msgs)
  · exact pySlices_mem_bounds batchSize (by decide) (mkEntries msgs)
  · rw [uploadBatches, pySlices_flatten batchSize (by decide), mkEntries_messageBody]
  · intro h
    subst h
    simp [uploadBatches, mkEntries, pySlices, batchSize]

/-- Witness for C2 at the 25-item input of the spec's end-to-end scenario 1
(3 batches of sizes 10, 10, 5). -/
theorem c2_partitioning_witness :
    (uploadBatches (List.range 25)).length = ((List.range 25).length + 10 - 1) / 10 ∧
    (∀ b ∈ (uploadBatches (List.range 25)).dropLast, b.length = 10) ∧
    (∀ b ∈ uploadBatches (List.range 25), 0 < b.length ∧ b.length ≤ 10) ∧
    ((uploadBatches (List.range 25)).flatten.map SqsEntry.messageBody = List.range 25) ∧
    (List.range 25 = [] → uploadBatches (List.range 25) = []) :=
  c2_partitioning (List.range 25)

/-- Claim C3 counterexample: with 11 messages `0, ..., 10`, the single item of
the second batch carries correlation id `"10"` (its position in the whole
input), not `"0"` (its zero-based position within its own batch), so the ids
of a batch do not start at `"0"`. -/
theorem c3_counterexample :
    (uploadBatches (List.range 11))[1]? = some [⟨"10", 10⟩] ∧
    ("10" : String) ≠ "0" := by
  exact ⟨by decide, by decide⟩

/-- Claim C3 (amended): each item's correlation `"Id"` string equals the
string form of its zero-based position in the whole input list (batch `j`,
offset `p` gives id `toString (10*j + p)`), because `enumerate` runs over the
full message list before slicing. -/
theorem c3_amended_global_ids {α : Type} (msgs : List α) (j p : Nat)
    (b : List (SqsEntry α)) (e : SqsEntry α)
    (hb : (uploadBatches msgs)[j]? = some b) (he : b[p]? = some e) :
    e.id = toString (batchSize * j + p) := by
  rw [uploadBatches] at hb
  have hj : j < ((mkEntries msgs).length + batchSize - 1) / batchSize := by
    by_contra hj
    rw [pySlices, List.getElem?_eq_none (by simpa using by omega)] at hb
    exact Option.noConfusion hb
  rw [pySlices_getElem? _ _ _ hj] at hb
  injection hb with hb
  subst hb
  rw [List.getElem?_take] at he
  by_cases hp : p < batchSize
  · rw [if_pos hp, List.getElem?_drop, mkEntries_getElem?] at he
    cases hmm : msgs[j * batchSize + p]? with
    | none =>
      rw [hmm] at he
      exact Option.noConfusion he
    | some a =>
      rw [hmm] at he
      simp only [Option.map_some'] at he
      injection he with he
      rw [← he, Nat.mul_comm batchSize j]
  · rw [if_neg hp] at he
    exact Option.noConfusion he

/-- Witness for the amended C3 at 11 messages, batch 1, offset 0. -/
theorem c3_amended_global_ids_witness :
    ((uploadBatches (List.range 11))[1]? = some [⟨"10", 10⟩]) ∧
    (([(⟨"10", 10⟩ : SqsEntry Nat)])[0]? = some ⟨"10", 10⟩) ∧
    (SqsEntry.id ⟨"10", (10 : Nat)⟩ = toString (batchSize * 1 + 0)) :=
  ⟨by decide, by decide,
    c3_amended_global_ids (List.range 11) 1 0 [⟨"10", 10⟩] ⟨"10", 10⟩
      (by decide) (by decide)⟩

/-- Claim C4: a submission function that raises a non-transient error (any
exception other than botocore ResponseParserError, which the `except` clause
does not catch) on its first invocation is invoked exactly once, no sleep is
performed, and the error propagates out of the sequential retry loop of
`QueueManager.upload`. -/
theorem c4_fatal_short_circuit (f : Nat → SubResult) (m : Nat) (hm : 1 ≤ m)
    (h0 : f 0 = .fatalErr) :
    seqRetryLoop f m = (.raisedFatal, 1, 0) := by
  obtain ⟨m', rfl⟩ : ∃ m', m = m' + 1 := ⟨m - 1, by omega⟩
  rw [seqRetryLoop]
  simp [seqRetryGo, h0]

/-- Witness for C4 at an always-fatal submission function and `m = 3`. -/
theorem c4_fatal_short_circuit_witness :
    (1 ≤ 3) ∧ ((fun _ : Nat => SubResult.fatalErr) 0 = SubResult.fatalErr) ∧
    seqRetryLoop (fun _ => SubResult.fatalErr) 3 = (.raisedFatal, 1, 0) :=
  ⟨by decide, rfl, c4_fatal_short_circuit (fun _ => .fatalErr) 3 (by decide) rfl⟩

/-- Claim C5: when the transient error survives all `max_retries` attempts,
the sequential path of `QueueManager.upload` raises the exception out of the
retry loop itself, while `_upload_batch_with_retry` returns the exception as
a value (it does not raise), and the drain loop of `QueueManager.upload`
raises it once that result is observed. -/
theorem c5_exhausted_retry (f : Nat → SubResult) (m : Nat) (hm : 1 ≤ m)
    (hf : ∀ i, i < m → f i = .transientErr) :
    (seqRetryLoop f m).1 = .raisedTransient ∧
    (uploadBatchWithRetry f m).1 = .retExcValue ∧
    (∀ pre : List PoolExit, (∀ r ∈ pre, r = .retNone) →
      drainPoolResults (pre ++ [(uploadBatchWithRetry f m).1]) =
        .error .retExcValue) := by
  have hok : m < m → f m = .ok := fun h => absurd h (Nat.lt_irrefl m)
  have hs := seqRetryGo_spec f m m hf hok m 0 (by omega) (by omega)
  have hp := poolRetryGo_spec f m m hf hok m 0 (by omega) (by omega)
  have hm0 : m ≠ 0 := by omega
  have hmm : ¬ m < m := Nat.lt_irrefl m
  have hres : (uploadBatchWithRetry f m).1 = .retExcValue := by
    rw [uploadBatchWithRetry, hp]
    simp [hm0, hmm]
  refine ⟨?_, hres, ?_⟩
  · rw [seqRetryLoop, hs]
    simp [hm0, hmm]
  · intro pre
    rw [hres]
    induction pre with
    | nil =>
      intro _
      rfl
    | cons r rest ih =>
      intro hpre
      have hr : r = .retNone := hpre r (by simp)
      subst hr
      rw [List.cons_append]
      rw [show drainPoolResults (.retNone :: (rest ++ [.retExcValue])) =
          drainPoolResults (rest ++ [.retExcValue]) from rfl]
      exact ih (fun r hr => hpre r (by simp [hr]))

/-- Witness for C5 at an always-transient submission function, `m = 3`, and a
one-element drained prefix. -/
theorem c5_exhausted_retry_witness :
    (1 ≤ 3) ∧
    ((seqRetryLoop (fun _ => SubResult.transientErr) 3).1 = .raisedTransient ∧
     (uploadBatchWithRetry (fun _ => SubResult.transientErr) 3).1 = .retExcValue ∧
     (∀ pre : List PoolExit, (∀ r ∈ pre, r = .retNone) →
       drainPoolResults (pre ++ [(uploadBatchWithRetry (fun _ => SubResult.transientErr) 3).1]) =
         .error .retExcValue)) :=
  ⟨by decide, c5_exhausted_retry (fun _ => .transientErr) 3 (by decide)
    (fun _ _ => rfl)⟩

/-- Claim C6 (code evaluated at the failing inputs): when
`get_queue_by_name` raises a `ClientError` whose text lacks
"NonExistentQueue", `_get_queue_url` raises an UnboundLocalError instead of
propagating the resolution error; and when `head_bucket` fails with a
`ClientError` and `create_bucket` raises `BucketAlreadyOwnedByYou`,
`S3Manager.create_bucket` propagates that error instead of treating the
already-owned bucket as success. -/
theorem c6_resolver_code_bug :
    getQueueUrl .errClientOther .created = .raisedUnboundLocal ∧
    create_bucket .errClientError .errAlreadyOwned = .raisedAlreadyOwned ∧
    create_bucket .errClientError .errAlreadyOwned ≠ .okFound ∧
    create_bucket .errClientError .errAlreadyOwned ≠ .okCreated :=
  ⟨rfl, rfl, by decide, by decide⟩

/-- Claim C7 counterexample: with two pending messages and
`max_messages = 2`, the service call fetches both messages, but `get_next`
returns only the first one — a single `(message, item)` pair — discarding
the second. -/
theorem c7_counterexample :
    receiveMessages ["a", "b"] ⟨2, 30⟩ = ["a", "b"] ∧
    get_next jsonParse ["a", "b"] 2 30 = (⟨2, 30⟩, .ok ("a", .raw "a")) :=
  ⟨rfl, rfl⟩

/-- Claim C7 (amended): `QueueManager.get_next` passes `max_messages` and
the visibility-timeout hint through to `receive_messages`, but regardless of
`max_messages` it returns only the first fetched message (as a single
message/item pair, or a decode error for that one message); the remaining
fetched messages are discarded. -/
theorem c7_amended_single_item {J : Type} (parse : String → Option J)
    (pending : List String) (mm vt : Nat) (h1 : pending ≠ []) (h2 : 1 ≤ mm) :
    (get_next parse pending mm vt).1 = ⟨mm, vt⟩ ∧
    ∃ msg, (receiveMessages pending ⟨mm, vt⟩).head? = some msg ∧
      ((get_next parse pending mm vt).2 = .error .jsonDecodeError ∨
       ∃ it, (get_next parse pending mm vt).2 = .ok (msg, it)) := by
  cases pending with
  | nil => exact absurd rfl h1
  | cons p rest =>
    obtain ⟨mm', rfl⟩ : ∃ mm', mm = mm' + 1 := ⟨mm - 1, by omega⟩
    refine ⟨rfl, p, rfl, ?_⟩
    cases hd : decodeItem parse p with
    | ok it =>
      right
      exact ⟨it, by simp [get_next, receiveMessages, List.take_succ_cons, hd]⟩
    | error e =>
      left
      simp [get_next, receiveMessages, List.take_succ_cons, hd]

/-- Witness for the amended C7 at two pending messages and
`max_messages = 2`. -/
theorem c7_amended_single_item_witness :
    (["a", "b"] ≠ ([] : List String)) ∧ (1 ≤ 2) ∧
    ((get_next jsonParse ["a", "b"] 2 30).1 = ⟨2, 30⟩ ∧
     ∃ msg, (receiveMessages ["a", "b"] ⟨2, 30⟩).head? = some msg ∧
       ((get_next jsonParse ["a", "b"] 2 30).2 = .error .jsonDecodeError ∨
        ∃ it, (get_next jsonParse ["a", "b"] 2 30).2 = .ok (msg, it))) :=
  ⟨by decide, by decide,
    c7_amended_single_item jsonParse ["a", "b"] 2 30 (by decide) (by decide)⟩

/-- Claim C8 counterexample: the payload beginning with a brace but not
valid JSON makes `get_next` raise a decode error instead of returning the
payload as an opaque string; conversely, "[1, 2]" is syntactically valid
JSON yet is returned as an opaque string because it does not begin with a
brace — so decoding is not "iff syntactically JSON" and errors do occur. -/
theorem c8_counterexample :
    (get_next jsonParse ["\x7boops"] 1 30).2 = .error .jsonDecodeError ∧
    jsonLoads "[1, 2]" = true ∧
    (get_next jsonParse ["[1, 2]"] 1 30).2 = .ok ("[1, 2]", .raw "[1, 2]") :=
  ⟨rfl, rfl, rfl⟩

/-- Claim C8 (amended): the payload of the message returned by `get_next` is
decoded into structured data iff it begins with "\x7b" and `json.loads`
succeeds on it; a payload beginning with "\x7b" on which `json.loads` fails
makes `get_next` raise the decode error; any payload not beginning with
"\x7b" is returned as an opaque string, even when it is valid JSON. -/
theorem c8_amended_brace_sniff {J : Type} (parse : String → Option J)
    (pending : List String) (body : String) (rest : List String) (mm vt : Nat)
    (hq : receiveMessages pending ⟨mm, vt⟩ = body :: rest) :
    (pyStartsWith body "\x7b" = false →
      (get_next parse pending mm vt).2 = .ok (body, .raw body)) ∧
    (∀ j, pyStartsWith body "\x7b" = true → parse body = some j →
      (get_next parse pending mm vt).2 = .ok (body, .structured j)) ∧
    (pyStartsWith body "\x7b" = true → parse body = none →
      (get_next parse pending mm vt).2 = .error .jsonDecodeError) := by
  refine ⟨?_, ?_, ?_⟩
  · intro hs
    simp [get_next, hq, decodeItem, hs]
  · intro j hs hp
    simp [get_next, hq, decodeItem, hs, hp]
  · intro hs hp
    simp [get_next, hq, decodeItem, hs, hp]

/-- Witness for the amended C8 at the braced, non-JSON payload. -/
theorem c8_amended_brace_sniff_witness :
    (receiveMessages ["\x7boops"] ⟨1, 30⟩ = ["\x7boops"]) ∧
    ((pyStartsWith "\x7boops" "\x7b" = false →
      (get_next jsonParse ["\x7boops"] 1 30).2 = .ok ("\x7boops", .raw "\x7boops")) ∧
     (∀ j, pyStartsWith "\x7boops" "\x7b" = true → jsonParse "\x7boops" = some j →
      (get_next jsonParse ["\x7boops"] 1 30).2 = .ok ("\x7boops", .structured j)) ∧
     (pyStartsWith "\x7boops" "\x7b" = true → jsonParse "\x7boops" = none →
      (get_next jsonParse ["\x7boops"] 1 30).2 = .error .jsonDecodeError)) :=
  ⟨rfl, c8_amended_brace_sniff jsonParse ["\x7boops"] "\x7boops" [] 1 30 rfl⟩

/-- Claim C9 counterexample: `LocalStorageManager.delete` removes the stored
file (the state changes) and raises on a missing key, with no warning —
contradicting "never raises and leaves state completely unchanged". -/
theorem c9_counterexample :
    localStorageDelete ⟨"root", [("root/a", "x")]⟩ "a" = .ok ⟨"root", []⟩ ∧
    (⟨"root", []⟩ : LocalStorageState) ≠ ⟨"root", [("root/a", "x")]⟩ ∧
    localStorageDelete ⟨"root", []⟩ "a" = .error () :=
  ⟨rfl, by decide, rfl⟩

/-- Claim C9 (amended): `LocalQueueManager.delete` and `purge` never raise,
leave the state (messages, index, and disk, which they never touch)
unchanged for every argument, and emit a warning; `LocalStorageManager.delete`,
by contrast, raises exactly when the joined path is absent, and on success
removes the file, strictly shrinking the stored file list. -/
theorem c9_amended_local_noop {P M : Type} (st : LocalQueueState P) (msg : M)
    (sst : LocalStorageState) (key : String) :
    localQueueDelete st msg = (st, true) ∧
    localQueuePurge st = (st, true) ∧
    (localStorageDelete sst key = .error () ↔
      osPathJoin sst.rootDir key ∉ sst.files.map Prod.fst) ∧
    (∀ st', localStorageDelete sst key = .ok st' →
      osPathJoin sst.rootDir key ∉ st'.files.map Prod.fst ∧
      st'.files.length < sst.files.length) := by
  have ha : (sst.files.any (fun kv => kv.1 == osPathJoin sst.rootDir key) = true) ↔
      osPathJoin sst.rootDir key ∈ sst.files.map Prod.fst := by
    rw [List.any_eq_true]
    constructor
    · rintro ⟨kv, hkv, hbeq⟩
      exact List.mem_map.mpr ⟨kv, hkv, by simpa using hbeq⟩
    · intro hm
      obtain ⟨kv, hkv, heq⟩ := List.mem_map.mp hm
      exact ⟨kv, hkv, by simpa using heq⟩
  refine ⟨rfl, rfl, ?_, ?_⟩
  · rw [localStorageDelete]
    by_cases h : sst.files.any (fun kv => kv.1 == osPathJoin sst.rootDir key) = true
    · rw [if_pos h]
      exact iff_of_false (by simp) (not_not_intro (ha.mp h))
    · rw [if_neg h]
      exact iff_of_true rfl (fun hm => h (ha.mpr hm))
  · intro st' hok
    rw [localStorageDelete] at hok
    by_cases h : sst.files.any (fun kv => kv.1 == osPathJoin sst.rootDir key) = true
    · rw [if_pos h] at hok
      injection hok with hok
      subst hok
      constructor
      · intro hm
        obtain ⟨kv, hkv, heq⟩ := List.mem_map.mp hm
        have h2 := List.mem_filter.mp hkv
        have h3 : kv.1 ≠ osPathJoin sst.rootDir key := by simpa using h2.2
        exact h3 heq
      · obtain ⟨kv, hkv, hbeq⟩ := List.any_eq_true.mp h
        have h1 := List.length_eq_length_filter_add
          (l := sst.files) (fun kv => kv.1 != osPathJoin sst.rootDir key)
        have h2 : kv ∈ sst.files.filter
            (fun kv => !(kv.1 != osPathJoin sst.rootDir key)) :=
          List.mem_filter.mpr ⟨hkv, by simpa using hbeq⟩
        have h3 := List.length_pos_of_mem h2
        simpa using by omega
    · rw [if_neg h] at hok
      exact Except.noConfusion hok

/-- Witness for the amended C9 at a one-file storage state. -/
theorem c9_amended_local_noop_witness :
    localQueueDelete (P := Nat) (M := Nat) ⟨"f.json", [1, 2], 0⟩ 5 =
      (⟨"f.json", [1, 2], 0⟩, true) ∧
    localQueuePurge (P := Nat) ⟨"f.json", [1, 2], 0⟩ = (⟨"f.json", [1, 2], 0⟩, true) ∧
    (localStorageDelete ⟨"root", [("root/a", "x")]⟩ "a" = .error () ↔
      osPathJoin "root" "a" ∉ ([("root/a", "x")].map Prod.fst)) ∧
    (∀ st', localStorageDelete ⟨"root", [("root/a", "x")]⟩ "a" = .ok st' →
      osPathJoin "root" "a" ∉ st'.files.map Prod.fst ∧
      st'.files.length < ([("root/a", "x")] : List (String × String)).length) :=
  c9_amended_local_noop ⟨"f.json", [1, 2], 0⟩ 5 ⟨"root", [("root/a", "x")]⟩ "a"

/-- Claim C10: for every `bucket_name` containing "/",
`S3Manager.__init__` sets `self.dirpath` to the empty string — the slice
`bucket_name[len(bucket_name) + 1 :]` is always empty — so the sub-path
after the first "/" is silently discarded and every subsequent operation
joins the empty dirpath with the key, using the bare key unchanged. -/
theorem c10_dirpath_empty (bucket_name : String)
    (h : pyContainsChar bucket_name '/' = true) :
    (s3ManagerInit bucket_name).dirpath = "" ∧
    ∀ key : String, s3UploadKey (s3ManagerInit bucket_name) key = key := by
  have hd : (s3ManagerInit bucket_name).dirpath = "" := by
    rw [s3ManagerInit, if_pos h]
    show pySliceFrom bucket_name (bucket_name.length + 1) = ""
    rw [pySliceFrom]
    have hdrop : bucket_name.data.drop (bucket_name.length + 1) = [] := by
      apply List.drop_eq_nil_of_le
      have hlen : bucket_name.length = bucket_name.data.length := rfl
      omega
    rw [hdrop]
  refine ⟨hd, ?_⟩
  intro key
  rw [s3UploadKey, hd, osPathJoin]
  by_cases hk : pyStartsWith key "/" = true
  · rw [if_pos hk]
  · rw [if_neg hk, if_pos rfl]

/-- Witness for C10 at `bucket_name = "my-bucket/my-dir"`. -/
theorem c10_dirpath_empty_witness :
    (pyContainsChar "my-bucket/my-dir" '/' = true) ∧
    ((s3ManagerInit "my-bucket/my-dir").dirpath = "" ∧
     ∀ key : String, s3UploadKey (s3ManagerInit "my-bucket/my-dir") key = key) :=
  ⟨rfl, c10_dirpath_empty "my-bucket/my-dir" rfl⟩

end Moto3
